import Mathlib

/-!
Verification of the finhelper backend's ledger computation engine.

The definitions below are shallow embeddings of the TypeScript source:

* money amounts (JS numbers used for currency) are modelled as rationals;
* JS `Date` values at midnight are modelled as civil (year, month, day)
  triples with JS's 0-based month index, and the ECMAScript `MakeDay`
  normalization (month overflow rolls the year, day overflow rolls into
  subsequent months) is made explicit;
* millisecond timestamps (used by the budget model, where only
  differences and comparisons matter) are modelled as integers;
* Mongoose documents become structures, instance methods become pure
  functions from the old document (plus an explicit `now`) to the new one,
  and a `pre-save` hook that can call `next(err)` becomes a function
  into `Except`.
-/

set_option maxRecDepth 4000

namespace FinHelper

/-! ## MoneyMath

`Math.round` in JS rounds half away from zero toward positive infinity:
`Math.round(x) = ⌊x + 1/2⌋`.  The expense model's inline
`Math.round(v * 100) / 100` is the 2-decimal rounding the spec calls
`round2`. -/

/-- JS `Math.round`: round half toward positive infinity,
`Math.round(x) = ⌊x + 1/2⌋`.  Written with `Rat.floor` so that it
evaluates by kernel reduction; `jsRound_eq` relates it to `Int.floor`. -/
def jsRound (x : ℚ) : ℤ := (x + 1 / 2).floor

theorem ratFloor_eq (q : ℚ) : q.floor = ⌊q⌋ := by
  rw [Rat.floor_def', Rat.floor_def]

theorem jsRound_eq (x : ℚ) : jsRound x = ⌊x + 1 / 2⌋ := ratFloor_eq _

/-- JS `Math.ceil`, via `Rat.floor` so that it evaluates by kernel
reduction; `jsCeil_eq` relates it to `Int.ceil`. -/
def jsCeil (x : ℚ) : ℤ := -(Rat.floor (-x))

theorem jsCeil_eq (x : ℚ) : jsCeil x = ⌈x⌉ := by
  rw [jsCeil, ratFloor_eq, Int.floor_neg, neg_neg]

/-- Embeds `Math.round(x * 100) / 100`, the 2-decimal rounding used by the
expense pre-save hook. -/
def round2 (x : ℚ) : ℚ := (jsRound (x * 100) : ℚ) / 100

/-! ## JS calendar dates

A `Date` is a civil date: `month` is 0-based (0 = January) exactly as in
JS `getMonth`, `day` is 1-based as in `getDate`.  `normDate` is the
day-overflow normalization performed by ECMAScript `MakeDay`: the
timestamp built for `(y, m, d)` is the first day of month `(y, m)` plus
`d - 1` days, so a day count exceeding the month length lands in a later
month.  It is written with an explicit fuel argument (the day count
strictly decreases at every step) so that it evaluates by kernel
reduction. -/

structure Date where
  year : ℤ
  month : ℕ
  day : ℕ
deriving Repr, DecidableEq

/-- Gregorian leap-year test. -/
def isLeap (y : ℤ) : Bool := (y % 4 == 0 && y % 100 != 0) || y % 400 == 0

/-- Length of the (0-based) month `m` of year `y`. -/
def daysInMonth (y : ℤ) (m : ℕ) : ℕ :=
  if m = 1 then (if isLeap y then 29 else 28)
  else if m = 3 ∨ m = 5 ∨ m = 8 ∨ m = 10 then 30
  else 31

theorem daysInMonth_ge (y : ℤ) (m : ℕ) : 28 ≤ daysInMonth y m := by
  unfold daysInMonth
  split_ifs <;> omega

/-- Fuelled day-overflow normalization; the fuel is an upper bound on the
number of month-carry steps (the day count itself suffices). -/
def normDateFuel : ℕ → ℤ → ℕ → ℕ → Date
  | 0, y, m, d => ⟨y, m, d⟩
  | fuel + 1, y, m, d =>
    if d ≤ daysInMonth y m then ⟨y, m, d⟩
    else if m = 11 then normDateFuel fuel (y + 1) 0 (d - daysInMonth y m)
    else normDateFuel fuel y (m + 1) (d - daysInMonth y m)

/-- ECMAScript `MakeDay` day-overflow normalization: starting from month
`(y, m)`, spill the day count `d` into subsequent months until it fits. -/
def normDate (y : ℤ) (m : ℕ) (d : ℕ) : Date := normDateFuel d y m d

theorem normDateFuel_of_le (fuel : ℕ) (y : ℤ) (m d : ℕ)
    (h : d ≤ daysInMonth y m) : normDateFuel fuel y m d = ⟨y, m, d⟩ := by
  cases fuel with
  | zero => rfl
  | succ n => simp [normDateFuel, h]

theorem normDateFuel_of_gt (fuel : ℕ) (y : ℤ) (m d : ℕ)
    (h : daysInMonth y m < d) :
    normDateFuel (fuel + 1) y m d =
      if m = 11 then normDateFuel fuel (y + 1) 0 (d - daysInMonth y m)
      else normDateFuel fuel y (m + 1) (d - daysInMonth y m) := by
  simp [normDateFuel, Nat.not_le.mpr h]

/-- JS `d.setDate(d.getDate() + n)`. -/
def jsAddDays (dt : Date) (n : ℕ) : Date := normDate dt.year dt.month (dt.day + n)

/-- JS `d.setMonth(d.getMonth() + k)`: the month index is advanced and
normalized into the year, the day count is kept and overflow-normalized. -/
def jsSetMonth (dt : Date) (k : ℕ) : Date :=
  normDate (dt.year + ((dt.month + k) / 12 : ℕ)) ((dt.month + k) % 12) dt.day

/-- JS `d.setFullYear(d.getFullYear() + k)` (day overflow is normalized,
e.g. Feb 29 becomes Mar 1 in a non-leap target year). -/
def jsSetFullYear (dt : Date) (k : ℕ) : Date :=
  normDate (dt.year + k) dt.month dt.day

/-- Strict order on dates; on normalized civil dates this coincides with
the order of the underlying JS timestamps. -/
def dateLtB (a b : Date) : Bool :=
  decide (a.year < b.year ∨ (a.year = b.year ∧
    (a.month < b.month ∨ (a.month = b.month ∧ a.day < b.day))))

/-! ## Expense model

Embedding of the `Expense` mongoose document: the fields the pre-save
hook and `calculateNextOccurrence` read or write.  The optional JS arrays
`splitBetween` / `splitAmounts` default to `[]` in mongoose, so absence
and emptiness coincide and both are modelled as the empty list (the hook
only ever tests `length > 0` / `length === 0`). -/

inductive ExpenseType where
  | personal
  | group
deriving Repr, DecidableEq

inductive Frequency where
  | daily
  | weekly
  | monthly
  | yearly
deriving Repr, DecidableEq

structure SplitEntry where
  userId : ℕ
  amount : ℚ
deriving Repr, DecidableEq

structure RecurringPattern where
  frequency : Frequency
  interval : ℕ
  endDate : Option Date
  nextOccurrence : Option Date
deriving Repr, DecidableEq

structure Expense where
  amount : ℚ
  date : Date
  type : ExpenseType
  splitBetween : List ℕ
  splitAmounts : List SplitEntry
  isRecurring : Bool
  recurringPattern : Option RecurringPattern
deriving Repr, DecidableEq

/-- The `switch (frequency)` of `calculateNextOccurrence`: advance the
anchor date by `interval` units of `frequency` using JS date setters. -/
def advanceDate (dt : Date) (f : Frequency) (interval : ℕ) : Date :=
  match f with
  | .daily => jsAddDays dt interval
  | .weekly => jsAddDays dt (interval * 7)
  | .monthly => jsSetMonth dt interval
  | .yearly => jsSetFullYear dt interval

/-- Embeds `expenseSchema.methods.calculateNextOccurrence`: computes the
candidate next occurrence from the anchor `date`; if the pattern has an
`endDate` and the candidate is strictly later, recurrence is deactivated
(`isRecurring := false`, `nextOccurrence` cleared), otherwise
`nextOccurrence` is set to the candidate. -/
def calculateNextOccurrence (e : Expense) : Expense :=
  match e.recurringPattern with
  | none => e
  | some p =>
    let nextDate := advanceDate e.date p.frequency p.interval
    match p.endDate with
    | some ed =>
      if dateLtB ed nextDate then
        { e with isRecurring := false,
                 recurringPattern := some { p with nextOccurrence := none } }
      else
        { e with recurringPattern := some { p with nextOccurrence := some nextDate } }
    | none =>
      { e with recurringPattern := some { p with nextOccurrence := some nextDate } }

/-- The split portion of `expenseSchema.pre-save`: for a group expense
with a non-empty `splitBetween` and no supplied `splitAmounts`, each
participant is assigned `Math.round((amount / count) * 100) / 100`; a
supplied (non-empty) `splitAmounts` is left untouched, with no
validation of its sum. -/
def expenseApplySplit (e : Expense) : Expense :=
  if e.type = .group ∧ 0 < e.splitBetween.length then
    if e.splitAmounts.length = 0 then
      { e with splitAmounts :=
          e.splitBetween.map (fun u => ⟨u, round2 (e.amount / e.splitBetween.length)⟩) }
    else e
  else e

/-- The whole `expenseSchema.pre-save` hook: split computation, then
recurrence advancement when `isRecurring` and a pattern are present.  The
hook always calls `next()` with no error, hence the unconditional `.ok`. -/
def expensePreSave (e : Expense) : Except String Expense :=
  let e1 := expenseApplySplit e
  let e2 := if e1.isRecurring ∧ e1.recurringPattern.isSome
            then calculateNextOccurrence e1 else e1
  .ok e2

/-! Sanity checks that the date embedding reproduces observable JS
`Date` behaviour on known inputs. -/

example : jsSetMonth ⟨2024, 0, 31⟩ 1 = ⟨2024, 2, 2⟩ := by decide

example : jsSetMonth ⟨2024, 0, 15⟩ 1 = ⟨2024, 1, 15⟩ := by decide

example : jsSetFullYear ⟨2024, 1, 29⟩ 1 = ⟨2025, 2, 1⟩ := by decide

example : jsAddDays ⟨2024, 11, 31⟩ 1 = ⟨2025, 0, 1⟩ := by decide

/-! ## Budget model

Embedding of the `Budget` mongoose document.  Date fields of the budget
are modelled as millisecond timestamps (integers): only differences,
comparisons and division by `1000*60*60*24` occur.  `calculateStats`
takes the amounts of the matching active expenses (the `$sum` aggregate
over the budget's scope filter) and the recomputation time `now` as
explicit inputs. -/

inductive BudgetStatus where
  | active
  | completed
  | exceeded
  | paused
  | cancelled
deriving Repr, DecidableEq

structure BudgetStats where
  spentAmount : ℚ
  remainingAmount : ℚ
  percentageUsed : ℚ
  daysRemaining : ℤ
  averageDailySpent : ℚ
  lastUpdated : ℤ
deriving Repr, DecidableEq

structure Budget where
  amount : ℚ
  startDate : ℤ
  endDate : ℤ
  alertThreshold : ℚ
  stats : BudgetStats
  status : BudgetStatus
deriving Repr, DecidableEq

/-- The constant `1000 * 60 * 60 * 24`, the divisor used in the day computations. -/
def msPerDay : ℚ := 86400000

/-- The `isExpired` virtual: `new Date() > this.endDate`. -/
def isExpired (b : Budget) (now : ℤ) : Bool := decide (now > b.endDate)

/-- The `isOverBudget` virtual: `this.stats.spentAmount > this.amount`. -/
def isOverBudget (b : Budget) : Bool := decide (b.stats.spentAmount > b.amount)

/-- The `daysElapsed` virtual:
`Math.ceil(Math.abs(now - start) / (1000*60*60*24))`.  Note the absolute
value: there is no flooring at 0, and a `now` before `startDate` yields a
positive value. -/
def daysElapsed (startDate now : ℤ) : ℤ := jsCeil ((|now - startDate| : ℤ) / msPerDay)

/-- Embeds `budgetSchema.methods.calculateStats`, with the aggregate's inputs
made explicit: `matching` is the list of amounts of the active expenses
inside the budget's scope filter and date range, so the aggregate's
`totalSpent` is its sum (0 when no expense matches). -/
def calculateStats (b : Budget) (matching : List ℚ) (now : ℤ) : Budget :=
  let spent := matching.sum
  let de := daysElapsed b.startDate now
  { b with stats :=
    { spentAmount := spent
      remainingAmount := max 0 (b.amount - spent)
      percentageUsed := spent / b.amount * 100
      daysRemaining := max 0 (jsCeil ((b.endDate - now : ℤ) / msPerDay))
      averageDailySpent := if de > 0 then spent / (de : ℚ) else 0
      lastUpdated := now } }

/-- Embeds `budgetSchema.methods.updateStatus`: no-op when the current status is
`cancelled` or `paused`; otherwise derives the status from `isExpired`
and `isOverBudget`. -/
def updateStatus (b : Budget) (now : ℤ) : Budget :=
  if b.status = BudgetStatus.cancelled ∨ b.status = BudgetStatus.paused then b
  else if isExpired b now then
    { b with status := if isOverBudget b then .exceeded else .completed }
  else if isOverBudget b then { b with status := .exceeded }
  else { b with status := .active }

/-- The mongoose validator declared on `stats.percentageUsed`
(`min: 0, max: 100`): a document whose stored `percentageUsed` violates
it is rejected at save time. -/
def percentageUsedValid (x : ℚ) : Bool := decide (0 ≤ x) && decide (x ≤ 100)

/-- Embeds `budgetSchema.methods.shouldAlert`. -/
def shouldAlert (b : Budget) : Bool :=
  decide (b.stats.percentageUsed ≥ b.alertThreshold) && decide (b.status = BudgetStatus.active)

/-! ## Group model

Embedding of the `Group` mongoose document: the member roster and the
stats block.  User ids are modelled as naturals (the source compares
them by `toString` equality, i.e. by identity). -/

inductive Role where
  | admin
  | member
deriving Repr, DecidableEq

structure Member where
  userId : ℕ
  role : Role
  joinedAt : ℤ
  isActive : Bool
deriving Repr, DecidableEq

structure GroupStats where
  totalExpenses : ℕ
  totalAmount : ℚ
  memberCount : ℕ
deriving Repr, DecidableEq

structure Group where
  members : List Member
  stats : GroupStats
deriving Repr, DecidableEq

/-- The `activeMembers` virtual. -/
def activeMembers (g : Group) : List Member := g.members.filter (fun m => m.isActive)

/-- The stats part of `groupSchema.pre-save`:
`this.stats.memberCount = this.activeMembers.length`. -/
def groupPreSave (g : Group) : Group :=
  { g with stats := { g.stats with memberCount := (activeMembers g).length } }

/-- Embeds `groupSchema.methods.addMember` on the member list: JS `find` locates
the first record with the given `userId`; an inactive one is reactivated
in place (`isActive := true`, `joinedAt := now`) and returned, an active
one is returned unchanged, and with no match a fresh active record is
pushed.  Returns the (returned member, updated list) pair. -/
def addMemberList (ms : List Member) (u : ℕ) (role : Role) (now : ℤ) : Member × List Member :=
  match ms with
  | [] => (⟨u, role, now, true⟩, [⟨u, role, now, true⟩])
  | m :: rest =>
    if m.userId == u then
      if m.isActive then (m, m :: rest)
      else ({ m with isActive := true, joinedAt := now },
            { m with isActive := true, joinedAt := now } :: rest)
    else
      ((addMemberList rest u role now).1, m :: (addMemberList rest u role now).2)

/-- Embeds `addMember` on the whole group document. -/
def addMember (g : Group) (u : ℕ) (role : Role) (now : ℤ) : Member × Group :=
  ((addMemberList g.members u role now).1,
   { g with members := (addMemberList g.members u role now).2 })

/-- Embeds `groupSchema.methods.removeMember` on the member list: JS `findIndex`
locates the first record with the given `userId` regardless of its
`isActive` flag; if found it is marked inactive and `true` is returned,
otherwise `false`. -/
def removeMemberList (ms : List Member) (u : ℕ) : Bool × List Member :=
  match ms with
  | [] => (false, [])
  | m :: rest =>
    if m.userId == u then (true, { m with isActive := false } :: rest)
    else ((removeMemberList rest u).1, m :: (removeMemberList rest u).2)

/-- Embeds `removeMember` on the whole group document. -/
def removeMember (g : Group) (u : ℕ) : Bool × Group :=
  ((removeMemberList g.members u).1, { g with members := (removeMemberList g.members u).2 })

/-- Embeds `groupSchema.methods.isMember`. -/
def isMember (g : Group) (u : ℕ) : Bool :=
  g.members.any (fun m => m.userId == u && m.isActive)

/-! ## Theorems about the budget status machine -/

/-- C2: on every recompute of a budget whose current status is neither
`paused` nor `cancelled`, `updateStatus` derives the new status as:
`exceeded` if `now > endDate` and `spentAmount > amount`; `completed` if
`now > endDate` and `spentAmount ≤ amount`; `exceeded` if `now ≤ endDate`
and `spentAmount > amount`; `active` otherwise.  When the current status
is `paused` or `cancelled`, the recompute leaves the budget untouched. -/
theorem updateStatus_derivation (b : Budget) (now : ℤ) :
    (b.status ≠ BudgetStatus.paused → b.status ≠ BudgetStatus.cancelled →
      (updateStatus b now).status =
        (if now > b.endDate then
           (if b.stats.spentAmount > b.amount then BudgetStatus.exceeded
            else BudgetStatus.completed)
         else if b.stats.spentAmount > b.amount then BudgetStatus.exceeded
         else BudgetStatus.active)) ∧
    ((b.status = BudgetStatus.paused ∨ b.status = BudgetStatus.cancelled) →
      updateStatus b now = b) := by
  constructor
  · intro h1 h2
    have hnc : ¬(b.status = BudgetStatus.cancelled ∨ b.status = BudgetStatus.paused) := by
      tauto
    rw [updateStatus, if_neg hnc]
    by_cases he : now > b.endDate <;> by_cases ho : b.stats.spentAmount > b.amount <;>
      simp [isExpired, isOverBudget, he, ho]
  · intro h
    have hc : b.status = BudgetStatus.cancelled ∨ b.status = BudgetStatus.paused := by
      tauto
    rw [updateStatus, if_pos hc]

def zeroStats : BudgetStats :=
  { spentAmount := 0, remainingAmount := 0, percentageUsed := 0,
    daysRemaining := 0, averageDailySpent := 0, lastUpdated := 0 }

def bOver : Budget :=
  { amount := 200, startDate := 0, endDate := 2592000000, alertThreshold := 80,
    stats := { zeroStats with spentAmount := 250 }, status := BudgetStatus.active }

def bPausedOver : Budget :=
  { bOver with status := BudgetStatus.paused }

/-- Witness for C2: an over-spent active budget inside its date range goes
to `exceeded`, while the same budget paused is left untouched. -/
theorem updateStatus_derivation_witness :
    (bOver.status ≠ BudgetStatus.paused ∧ bOver.status ≠ BudgetStatus.cancelled ∧
      (updateStatus bOver 100).status = BudgetStatus.exceeded) ∧
    (bPausedOver.status = BudgetStatus.paused ∧ updateStatus bPausedOver 100 = bPausedOver) := by
  refine ⟨⟨by decide, by decide, ?_⟩, rfl, ?_⟩
  · rw [(updateStatus_derivation bOver 100).1 (by decide) (by decide)]
    norm_num [bOver, zeroStats]
  · exact (updateStatus_derivation bPausedOver 100).2 (Or.inl rfl)

/-! ## Theorems about group membership -/

theorem addMemberList_active (u : ℕ) (role : Role) (now : ℤ) :
    ∀ ms : List Member,
      ms.any (fun m => m.userId == u && m.isActive) = true →
      ms.all (fun m => !(m.userId == u) || m.isActive) = true →
      (addMemberList ms u role now).2 = ms ∧
      ms.find? (fun m => m.userId == u) = some (addMemberList ms u role now).1 := by
  intro ms
  induction ms with
  | nil => intro h _; simp at h
  | cons m rest ih =>
    intro h1 h2
    rcases hmu : (m.userId == u) with _ | _
    · simp only [List.any_cons, hmu, Bool.false_and, Bool.false_or] at h1
      simp only [List.all_cons, hmu, Bool.not_false, Bool.true_or, Bool.true_and] at h2
      obtain ⟨hA, hB⟩ := ih h1 h2
      constructor
      · simp [addMemberList, hmu, hA]
      · simp [addMemberList, List.find?, hmu, hB]
    · simp only [List.all_cons, hmu, Bool.not_true, Bool.false_or, Bool.and_eq_true] at h2
      have hact : m.isActive = true := h2.1
      constructor
      · simp [addMemberList, hmu, hact]
      · simp [addMemberList, List.find?, hmu, hact]

/-- C9: for every group and every userId all of whose roster records are
active and at least one exists, `addMember` returns the existing record
and leaves the group — roster and all — unchanged, so the recomputed
`memberCount` is unchanged as well (and a second identical call changes
nothing either). -/
theorem addMember_idempotent (g : Group) (u : ℕ) (role : Role) (now : ℤ)
    (h1 : g.members.any (fun m => m.userId == u && m.isActive) = true)
    (h2 : g.members.all (fun m => !(m.userId == u) || m.isActive) = true) :
    (addMember g u role now).2 = g ∧
    g.members.find? (fun m => m.userId == u) = some (addMember g u role now).1 ∧
    (groupPreSave (addMember g u role now).2).stats.memberCount =
      (groupPreSave g).stats.memberCount := by
  obtain ⟨hA, hB⟩ := addMemberList_active u role now g.members h1 h2
  have hg : (addMember g u role now).2 = g := by
    show ({ g with members := (addMemberList g.members u role now).2 } : Group) = g
    rw [hA]
  exact ⟨hg, hB, by rw [hg]⟩

def gActive : Group :=
  { members := [⟨1, Role.admin, 0, true⟩, ⟨2, Role.member, 0, true⟩],
    stats := { totalExpenses := 0, totalAmount := 0, memberCount := 2 } }

/-- Witness for C9 at a two-member group whose member 2 is active. -/
theorem addMember_idempotent_witness :
    gActive.members.any (fun m => m.userId == 2 && m.isActive) = true ∧
    (addMember gActive 2 Role.member 7).2 = gActive ∧
    gActive.members.find? (fun m => m.userId == 2) = some (addMember gActive 2 Role.member 7).1 ∧
    (groupPreSave (addMember gActive 2 Role.member 7).2).stats.memberCount =
      (groupPreSave gActive).stats.memberCount := by
  refine ⟨by decide, ?_⟩
  exact addMember_idempotent gActive 2 Role.member 7 (by decide) (by decide)

theorem addMemberList_userId_role (u : ℕ) (role : Role) (now : ℤ) :
    ∀ ms : List Member,
      ms.any (fun m => m.userId == u) = true →
      (addMemberList ms u role now).2.map (fun m => (m.userId, m.role)) =
        ms.map (fun m => (m.userId, m.role)) := by
  intro ms
  induction ms with
  | nil => intro h; simp at h
  | cons m rest ih =>
    intro h1
    rcases hmu : (m.userId == u) with _ | _
    · simp only [List.any_cons, hmu, Bool.false_or] at h1
      simp [addMemberList, hmu, ih h1]
    · rcases hact : m.isActive with _ | _ <;> simp [addMemberList, hmu, hact]

/-- C10: whenever a record for the userId already exists (active or
inactive), `addMember` preserves every record's `userId` and `role` and
appends nothing: the requested role takes effect only for brand-new
records, and reactivation touches only `isActive` and `joinedAt`. -/
theorem addMember_preserves_roles (g : Group) (u : ℕ) (role : Role) (now : ℤ)
    (h : g.members.any (fun m => m.userId == u) = true) :
    (addMember g u role now).2.members.map (fun m => (m.userId, m.role)) =
      g.members.map (fun m => (m.userId, m.role)) :=
  addMemberList_userId_role u role now g.members h

def gInactiveAdmin : Group :=
  { members := [⟨5, Role.admin, 0, false⟩],
    stats := { totalExpenses := 0, totalAmount := 0, memberCount := 0 } }

/-- Witness for C10: reactivating an inactive admin with a requested role
of `member` leaves the stored role `admin`. -/
theorem addMember_preserves_roles_witness :
    gInactiveAdmin.members.any (fun m => m.userId == 5) = true ∧
    (addMember gInactiveAdmin 5 Role.member 9).2.members.map (fun m => (m.userId, m.role)) =
      gInactiveAdmin.members.map (fun m => (m.userId, m.role)) :=
  ⟨by decide, addMember_preserves_roles gInactiveAdmin 5 Role.member 9 (by decide)⟩

theorem removeMemberList_spec (u : ℕ) :
    ∀ ms : List Member,
      (removeMemberList ms u).1 = ms.any (fun m => m.userId == u) ∧
      (removeMemberList ms u).2.map (fun m => (m.userId, m.role, m.joinedAt)) =
        ms.map (fun m => (m.userId, m.role, m.joinedAt)) ∧
      (removeMemberList ms u).2.find? (fun m => m.userId == u) =
        (ms.find? (fun m => m.userId == u)).map (fun m => { m with isActive := false }) := by
  intro ms
  induction ms with
  | nil => exact ⟨rfl, rfl, rfl⟩
  | cons m rest ih =>
    obtain ⟨ih1, ih2, ih3⟩ := ih
    rcases hmu : (m.userId == u) with _ | _
    · refine ⟨?_, ?_, ?_⟩
      · simp [removeMemberList, hmu, ih1]
      · simp [removeMemberList, hmu, ih2]
      · simp [removeMemberList, List.find?, hmu, ih3]
    · refine ⟨?_, ?_, ?_⟩
      · simp [removeMemberList, hmu]
      · simp [removeMemberList, hmu]
      · simp [removeMemberList, List.find?, hmu]

/-- C8 (amended): `removeMember` reports success exactly when some record
for the userId exists, active or not; it never deletes a record and
changes no `userId`, `role` or `joinedAt`; the first record for the
userId, when present, is marked inactive. -/
theorem removeMember_matches_any_record (g : Group) (u : ℕ) :
    (removeMember g u).1 = g.members.any (fun m => m.userId == u) ∧
    (removeMember g u).2.members.map (fun m => (m.userId, m.role, m.joinedAt)) =
      g.members.map (fun m => (m.userId, m.role, m.joinedAt)) ∧
    (removeMember g u).2.members.find? (fun m => m.userId == u) =
      (g.members.find? (fun m => m.userId == u)).map (fun m => { m with isActive := false }) :=
  removeMemberList_spec u g.members

def gInactiveOnly : Group :=
  { members := [⟨1, Role.member, 0, false⟩],
    stats := { totalExpenses := 0, totalAmount := 0, memberCount := 0 } }

/-- C8 counterexample: a group whose only record for user 1 is inactive
has no active record, yet `removeMember` still reports success instead of
"not found". -/
theorem removeMember_inactive_reports_found :
    (removeMember gInactiveOnly 1).1 = true ∧ isMember gInactiveOnly 1 = false := by
  decide

/-! ## Theorems about expense saving and recurrence -/

theorem expenseApplySplit_of_custom (e : Expense) (h : e.splitAmounts ≠ []) :
    expenseApplySplit e = e := by
  unfold expenseApplySplit
  split_ifs with h1 h2
  · exact absurd (List.length_eq_zero.mp h2) h
  · rfl
  · rfl

theorem calculateNextOccurrence_frame (e : Expense) :
    (calculateNextOccurrence e).amount = e.amount ∧
    (calculateNextOccurrence e).date = e.date ∧
    (calculateNextOccurrence e).type = e.type ∧
    (calculateNextOccurrence e).splitBetween = e.splitBetween ∧
    (calculateNextOccurrence e).splitAmounts = e.splitAmounts := by
  rcases hp : e.recurringPattern with _ | p
  · simp [calculateNextOccurrence, hp]
  · rcases hed : p.endDate with _ | ed
    · simp [calculateNextOccurrence, hp, hed]
    · simp only [calculateNextOccurrence, hp, hed]
      split_ifs <;> simp

/-- C4 (amended): when the caller supplies explicit (non-empty)
per-participant split amounts, the pre-save hook completes without
signalling any error and leaves the supplied amounts unmodified — no
sum-vs-amount validation is performed anywhere in the hook. -/
theorem expensePreSave_custom_untouched (e : Expense) (h : e.splitAmounts ≠ []) :
    ∃ e2, expensePreSave e = Except.ok e2 ∧ e2.splitAmounts = e.splitAmounts := by
  refine ⟨_, rfl, ?_⟩
  rw [expenseApplySplit_of_custom e h]
  split_ifs with hr
  · exact (calculateNextOccurrence_frame e).2.2.2.2
  · rfl

def eMismatch : Expense :=
  { amount := 100, date := ⟨2024, 0, 15⟩, type := ExpenseType.group,
    splitBetween := [1, 2], splitAmounts := [⟨1, 10⟩, ⟨2, 20⟩],
    isRecurring := false, recurringPattern := none }

/-- C4 counterexample: a custom split summing to 30 on an expense of
amount 100 saves successfully with the amounts unchanged — no
`AmountMismatch` (or any other) error is signalled. -/
theorem expensePreSave_mismatch_accepted :
    expensePreSave eMismatch = Except.ok eMismatch ∧
    (eMismatch.splitAmounts.map (fun s => s.amount)).sum ≠ eMismatch.amount := by
  constructor
  · rfl
  · norm_num [eMismatch]

/-- Witness for C4 at the same mismatched custom split. -/
theorem expensePreSave_custom_untouched_witness :
    eMismatch.splitAmounts ≠ [] ∧
    ∃ e2, expensePreSave eMismatch = Except.ok e2 ∧
      e2.splitAmounts = eMismatch.splitAmounts :=
  ⟨by decide, expensePreSave_custom_untouched eMismatch (by decide)⟩

/-- C5: for every recurring expense whose pattern carries an `endDate`,
if the candidate next occurrence (the anchor date advanced by `interval`
units of `frequency`) is strictly later than `endDate` then
`calculateNextOccurrence` deactivates the recurrence (`isRecurring`
becomes `false` and `nextOccurrence` is cleared); otherwise it sets
`nextOccurrence` to the candidate and leaves `isRecurring` alone. -/
theorem calculateNextOccurrence_endDate (e : Expense) (p : RecurringPattern) (ed : Date)
    (hp : e.recurringPattern = some p) (hed : p.endDate = some ed) :
    (dateLtB ed (advanceDate e.date p.frequency p.interval) = true →
      (calculateNextOccurrence e).isRecurring = false ∧
      (calculateNextOccurrence e).recurringPattern =
        some { p with nextOccurrence := none }) ∧
    (dateLtB ed (advanceDate e.date p.frequency p.interval) = false →
      (calculateNextOccurrence e).isRecurring = e.isRecurring ∧
      (calculateNextOccurrence e).recurringPattern =
        some { p with nextOccurrence := some (advanceDate e.date p.frequency p.interval) }) := by
  simp only [calculateNextOccurrence, hp, hed]
  constructor <;> intro h <;> simp [h]

def pFeb15 : RecurringPattern :=
  { frequency := Frequency.monthly, interval := 1,
    endDate := some ⟨2024, 1, 15⟩, nextOccurrence := none }

def eEndsFeb15 : Expense :=
  { amount := 50, date := ⟨2024, 0, 31⟩, type := ExpenseType.personal,
    splitBetween := [], splitAmounts := [],
    isRecurring := true, recurringPattern := some pFeb15 }

/-- Witness for C5: anchor 2024-01-31, monthly, interval 1, endDate
2024-02-15 — the candidate (2024-03-02 under the code's date arithmetic)
exceeds the end date, so recurrence is deactivated. -/
theorem calculateNextOccurrence_endDate_witness :
    (calculateNextOccurrence eEndsFeb15).isRecurring = false ∧
    (calculateNextOccurrence eEndsFeb15).recurringPattern =
      some { pFeb15 with nextOccurrence := none } :=
  (calculateNextOccurrence_endDate eEndsFeb15 pFeb15 ⟨2024, 1, 15⟩ rfl rfl).1 (by decide)

/-! ## Theorems about the equal split -/

/-- C1 (amended): for a group expense with a non-empty, duplicate-free
participant list and no supplied split amounts, the pre-save hook assigns
`round2(amount / count)` to every participant independently — there is no
remainder distribution — so the per-participant amounts sum to
`count × round2(amount / count)`, which need not equal the input amount. -/
theorem expenseApplySplit_equal (e : Expense) (h1 : e.type = ExpenseType.group)
    (h2 : e.splitBetween ≠ []) (h3 : e.splitAmounts = [])
    (h4 : e.splitBetween.Nodup) :
    (expenseApplySplit e).splitAmounts =
      e.splitBetween.map (fun u => ⟨u, round2 (e.amount / e.splitBetween.length)⟩) ∧
    ((expenseApplySplit e).splitAmounts.map (fun s => s.amount)).sum =
      (e.splitBetween.length : ℚ) * round2 (e.amount / e.splitBetween.length) := by
  have hl : 0 < e.splitBetween.length := List.length_pos.mpr h2
  have h30 : e.splitAmounts.length = 0 := by rw [h3]; rfl
  have hs : (expenseApplySplit e).splitAmounts =
      e.splitBetween.map (fun u => ⟨u, round2 (e.amount / e.splitBetween.length)⟩) := by
    unfold expenseApplySplit
    rw [if_pos ⟨h1, hl⟩, if_pos h30]
  refine ⟨hs, ?_⟩
  rw [hs, List.map_map]
  have hconst : ((fun s : SplitEntry => s.amount) ∘
      (fun u : ℕ => (⟨u, round2 (e.amount / e.splitBetween.length)⟩ : SplitEntry))) =
      fun _ => round2 (e.amount / e.splitBetween.length) := rfl
  rw [hconst, List.map_const', List.sum_replicate, nsmul_eq_mul]

def eSplit100 : Expense :=
  { amount := 100, date := ⟨2024, 0, 15⟩, type := ExpenseType.group,
    splitBetween := [1, 2, 3], splitAmounts := [],
    isRecurring := false, recurringPattern := none }

/-- C1 counterexample: amount 100.00 split equally between 3 participants
yields three shares of 33.33 summing to 99.99, not 100.00 — conservation
fails because each share is rounded independently. -/
theorem expenseApplySplit_not_conserving :
    ((expenseApplySplit eSplit100).splitAmounts.map (fun s => s.amount)).sum = 9999 / 100 ∧
    (9999 / 100 : ℚ) ≠ eSplit100.amount := by
  constructor
  · norm_num [expenseApplySplit, eSplit100, round2, jsRound, Rat.floor_def']
  · norm_num [eSplit100]

/-- Witness for C1 (amended) at the 100.00-by-3 split. -/
theorem expenseApplySplit_equal_witness :
    eSplit100.type = ExpenseType.group ∧ eSplit100.splitBetween ≠ [] ∧
    eSplit100.splitAmounts = [] ∧ eSplit100.splitBetween.Nodup ∧
    ((expenseApplySplit eSplit100).splitAmounts =
      eSplit100.splitBetween.map
        (fun u => ⟨u, round2 (eSplit100.amount / eSplit100.splitBetween.length)⟩) ∧
    ((expenseApplySplit eSplit100).splitAmounts.map (fun s => s.amount)).sum =
      (eSplit100.splitBetween.length : ℚ) *
        round2 (eSplit100.amount / eSplit100.splitBetween.length)) :=
  ⟨rfl, by decide, rfl, by decide,
   expenseApplySplit_equal eSplit100 rfl (by decide) rfl (by decide)⟩

/-! ## Theorems about monthly advancement -/

theorem jsSetMonth_eq (dt : Date) (k : ℕ) (hd : dt.day ≤ 31) :
    jsSetMonth dt k =
      (if dt.day ≤ daysInMonth (dt.year + ((dt.month + k) / 12 : ℕ)) ((dt.month + k) % 12) then
        ⟨dt.year + ((dt.month + k) / 12 : ℕ), (dt.month + k) % 12, dt.day⟩
      else if (dt.month + k) % 12 = 11 then
        ⟨dt.year + ((dt.month + k) / 12 : ℕ) + 1, 0,
         dt.day - daysInMonth (dt.year + ((dt.month + k) / 12 : ℕ)) ((dt.month + k) % 12)⟩
      else
        ⟨dt.year + ((dt.month + k) / 12 : ℕ), (dt.month + k) % 12 + 1,
         dt.day - daysInMonth (dt.year + ((dt.month + k) / 12 : ℕ)) ((dt.month + k) % 12)⟩) := by
  set y : ℤ := dt.year + ((dt.month + k) / 12 : ℕ) with hy
  set m : ℕ := (dt.month + k) % 12 with hm
  have hge := daysInMonth_ge y m
  unfold jsSetMonth normDate
  rw [← hy, ← hm]
  by_cases h : dt.day ≤ daysInMonth y m
  · rw [normDateFuel_of_le _ _ _ _ h, if_pos h]
  · push_neg at h
    rw [if_neg (by omega)]
    obtain ⟨d, hd1⟩ : ∃ d, dt.day = d + 1 := ⟨dt.day - 1, by omega⟩
    rw [hd1, normDateFuel_of_gt _ _ _ _ (by omega)]
    by_cases h11 : m = 11
    · rw [if_pos h11, if_pos h11,
        normDateFuel_of_le _ _ _ _ (le_trans (by omega) (daysInMonth_ge (y + 1) 0)), ← hd1]
    · rw [if_neg h11, if_neg h11,
        normDateFuel_of_le _ _ _ _ (le_trans (by omega) (daysInMonth_ge y (m + 1))), ← hd1]

/-- C3 (amended): for every anchor date (with a valid day-of-month) and
monthly pattern with positive interval and no end date, the next
occurrence is computed with JS `setMonth` semantics: the month index is
advanced by `interval` (normalizing into the year) and the anchor's
day-of-month is kept, overflowing into the following month when the
target month is shorter — there is no end-of-month clamping. -/
theorem calculateNextOccurrence_monthly (e : Expense) (p : RecurringPattern)
    (hp : e.recurringPattern = some p) (hf : p.frequency = Frequency.monthly)
    (hed : p.endDate = none) (hpos : 0 < p.interval) (hd : e.date.day ≤ 31) :
    (calculateNextOccurrence e).recurringPattern =
      some { p with nextOccurrence := some (
        if e.date.day ≤ daysInMonth (e.date.year + ((e.date.month + p.interval) / 12 : ℕ))
              ((e.date.month + p.interval) % 12) then
          ⟨e.date.year + ((e.date.month + p.interval) / 12 : ℕ),
           (e.date.month + p.interval) % 12, e.date.day⟩
        else if (e.date.month + p.interval) % 12 = 11 then
          ⟨e.date.year + ((e.date.month + p.interval) / 12 : ℕ) + 1, 0,
           e.date.day - daysInMonth (e.date.year + ((e.date.month + p.interval) / 12 : ℕ))
             ((e.date.month + p.interval) % 12)⟩
        else
          ⟨e.date.year + ((e.date.month + p.interval) / 12 : ℕ),
           (e.date.month + p.interval) % 12 + 1,
           e.date.day - daysInMonth (e.date.year + ((e.date.month + p.interval) / 12 : ℕ))
             ((e.date.month + p.interval) % 12)⟩) } ∧
    (calculateNextOccurrence e).isRecurring = e.isRecurring := by
  have hadv : advanceDate e.date p.frequency p.interval = jsSetMonth e.date p.interval := by
    rw [hf]; rfl
  constructor
  · simp only [calculateNextOccurrence, hp, hed, hadv, jsSetMonth_eq e.date p.interval hd]
  · simp only [calculateNextOccurrence, hp, hed]

def eJan31 : Expense :=
  { amount := 50, date := ⟨2024, 0, 31⟩, type := ExpenseType.personal,
    splitBetween := [], splitAmounts := [],
    isRecurring := true,
    recurringPattern := some ⟨Frequency.monthly, 1, none, none⟩ }

/-- C3 counterexample: anchor 2024-01-31, monthly, interval 1 — the code
produces 2024-03-02 (month index 2, day 2), not the clamped 2024-02-29
(month index 1, day 29) the claim asserts. -/
theorem calculateNextOccurrence_jan31_overflows :
    (calculateNextOccurrence eJan31).recurringPattern =
      some ⟨Frequency.monthly, 1, none, some ⟨2024, 2, 2⟩⟩ ∧
    (⟨2024, 2, 2⟩ : Date) ≠ ⟨2024, 1, 29⟩ := by
  decide

/-- Witness for C3 (amended) at the 2024-01-31 anchor. -/
theorem calculateNextOccurrence_monthly_witness :
    (calculateNextOccurrence eJan31).recurringPattern =
      some ⟨Frequency.monthly, 1, none, some ⟨2024, 2, 2⟩⟩ ∧
    (calculateNextOccurrence eJan31).isRecurring = eJan31.isRecurring := by
  have h := calculateNextOccurrence_monthly eJan31 ⟨Frequency.monthly, 1, none, none⟩
    rfl rfl rfl (by decide) (by decide)
  exact ⟨h.1.trans (by decide), h.2⟩

/-! ## Theorems about budget stats -/

def bAmount200 : Budget :=
  { amount := 200, startDate := 0, endDate := 2592000000, alertThreshold := 80,
    stats := zeroStats, status := BudgetStatus.active }

/-- C6: `calculateStats` does set `percentageUsed = 100 × spent / amount`
(125 for amount 200, spend 250) and `updateStatus` then derives
`exceeded` — but the schema validator on `stats.percentageUsed`
(`min: 0, max: 100`) rejects every value above 100, so an over-100
percentage is not a valid stored output: the document cannot be saved in
exactly the state the code's own status machine produces. -/
theorem percentageUsed_over100_rejected :
    (calculateStats bAmount200 [250] 864000000).stats.percentageUsed = 125 ∧
    percentageUsedValid 125 = false ∧
    (updateStatus (calculateStats bAmount200 [250] 864000000) 864000000).status =
      BudgetStatus.exceeded := by
  refine ⟨?_, ?_, ?_⟩
  · norm_num [calculateStats, bAmount200]
  · simp only [percentageUsedValid, Bool.and_eq_false_iff]
    right
    rw [decide_eq_false_iff_not]
    norm_num
  · norm_num [updateStatus, isExpired, isOverBudget, calculateStats, bAmount200, zeroStats]
    simp

/-- C7 (amended): on every recompute, the `daysElapsed` feeding
`averageDailySpent` is `ceil(|now − startDate| in days)` — an absolute
difference with no flooring at 0 — so it is nonnegative, and it is 0
exactly when `now` equals `startDate` (in particular it is positive, not
0, when `now` is earlier than `startDate`); `averageDailySpent` is
`spentAmount / daysElapsed` when `daysElapsed > 0` and 0 otherwise. -/
theorem calculateStats_averageDaily (b : Budget) (matching : List ℚ) (now : ℤ) :
    0 ≤ daysElapsed b.startDate now ∧
    (daysElapsed b.startDate now = 0 ↔ now = b.startDate) ∧
    (calculateStats b matching now).stats.averageDailySpent =
      (if daysElapsed b.startDate now > 0 then
         matching.sum / (daysElapsed b.startDate now : ℚ) else 0) := by
  have hq : (0:ℚ) ≤ ((|now - b.startDate| : ℤ) : ℚ) / msPerDay := by
    apply div_nonneg
    · exact_mod_cast abs_nonneg _
    · norm_num [msPerDay]
  have hde : daysElapsed b.startDate now = ⌈((|now - b.startDate| : ℤ) : ℚ) / msPerDay⌉ := by
    rw [daysElapsed, jsCeil_eq]
  refine ⟨?_, ?_, rfl⟩
  · rw [hde]
    exact Int.ceil_nonneg hq
  · rw [hde]
    constructor
    · intro h
      have hle : ((|now - b.startDate| : ℤ) : ℚ) / msPerDay ≤ 0 := by
        have := Int.ceil_le.mp (le_of_eq h)
        simpa using this
      have hzero : ((|now - b.startDate| : ℤ) : ℚ) / msPerDay = 0 := le_antisymm hle hq
      have habs : |now - b.startDate| = 0 := by
        rcases div_eq_zero_iff.mp hzero with h' | h'
        · exact_mod_cast h'
        · exact absurd h' (by norm_num [msPerDay])
      have := abs_eq_zero.mp habs
      omega
    · intro h
      subst h
      simp

def bStartsDay2 : Budget :=
  { amount := 100, startDate := 172800000, endDate := 2592000000, alertThreshold := 80,
    stats := zeroStats, status := BudgetStatus.active }

/-- C7 counterexample: two days before `startDate` the code's
`daysElapsed` is 2 (ceiling of the absolute difference), not the 0
demanded by the claim's `max(0, ceil(now − startDate))` formula, and the
average daily spend is accordingly 10 / 2 = 5 instead of 0. -/
theorem daysElapsed_before_start :
    daysElapsed bStartsDay2.startDate 0 = 2 ∧
    max (0:ℤ) (jsCeil ((0 - bStartsDay2.startDate : ℤ) / msPerDay)) = 0 ∧
    (calculateStats bStartsDay2 [10] 0).stats.averageDailySpent = 5 := by
  refine ⟨?_, ?_, ?_⟩
  · norm_num [daysElapsed, jsCeil, Rat.floor_def', bStartsDay2, msPerDay]
  · norm_num [jsCeil, Rat.floor_def', bStartsDay2, msPerDay]
  · norm_num [calculateStats, daysElapsed, jsCeil, Rat.floor_def', bStartsDay2, msPerDay]

end FinHelper
